import Mathlib

/-!
Shallow embedding of the social-graph and messaging engine of WNL_back
(`src/core/views.py`) and proofs of the specified properties.

User references are modelled as natural numbers (Django integer primary
keys).  The persistent store is a record of four tables, each a list of
rows in insertion order.  Request handlers become functions from a store
(plus the acting user and request parameters) to a result paired with the
store after the handler ran; Django persists every `save()`/`create()`
immediately, and `views.py` opens no transaction, so a handler that fails
midway returns the partially mutated store.
-/

namespace WNL

/-- Row of the FriendRequest table (models imported at views.py line 17);
`status` is one of the strings "pending", "accepted", "declined" used at
views.py lines 56, 62, 75. -/
structure FriendRequest where
  id : Nat
  sender : Nat
  receiver : Nat
  status : String
  created_at : Nat
  deriving DecidableEq, Repr

/-- Row of the Friendship table: a directed edge from `user1` to `user2`
(views.py lines 59, 66-67, 86). -/
structure Friendship where
  user1 : Nat
  user2 : Nat
  deriving DecidableEq, Repr

/-- Row of the Message table (views.py lines 128-131). -/
structure Message where
  id : Nat
  sender : Nat
  receiver : Nat
  body : String
  timestamp : Nat
  deriving DecidableEq, Repr

/-- Row of the Notification table (views.py lines 142-152). -/
structure Notification where
  id : Nat
  user : Nat
  is_read : Bool
  timestamp : Nat
  deriving DecidableEq, Repr

/-- The persistent store: the four tables the claims are about, each in
insertion order. -/
structure DB where
  friendRequests : List FriendRequest
  friendships : List Friendship
  messages : List Message
  notifications : List Notification
  deriving DecidableEq, Repr

/-- Outcome of a state-changing handler, the error taxonomy of spec §7.
`conflict` is an unhandled store-level uniqueness violation escaping the
handler (a 500, not a handled response). -/
inductive ApiResult where
  | notFound
  | alreadyProcessed
  | duplicateFriendship
  | invalidTarget
  | conflict
  | ok
  deriving DecidableEq, Repr

/-- Embedding of `Friendship.objects.filter(user1=a, user2=b).exists()`
(views.py line 59): a one-directional row lookup. -/
def friendshipExists (db : DB) (a b : Nat) : Bool :=
  db.friendships.any (fun f => f.user1 == a && f.user2 == b)

/-- Modelled from the spec: the Friendship store's uniqueness constraint on
the directed pair (models.py is not under src/; spec §2 assumes the storage
engine provides unique constraints and §5 requires a uniqueness constraint
on the pair).  `Friendship.objects.create(user1=a, user2=b)` (views.py
lines 66-67) inserts the row, or fails when that directed row already
exists; `none` models the constraint violation escaping as an exception. -/
def friendshipCreate (db : DB) (a b : Nat) : Option DB :=
  if friendshipExists db a b then none
  else some { db with friendships := db.friendships ++ [⟨a, b⟩] }

/-- Embedding of `get_object_or_404(FriendRequest, pk=pk, receiver=request.user)`
(views.py lines 55 and 72): the first row matching both the primary key and
the receiver scope, `none` meaning a 404. -/
def findRequest (db : DB) (pk user : Nat) : Option FriendRequest :=
  db.friendRequests.find? (fun r => r.id == pk && r.receiver == user)

/-- Embedding of `friend_request.status = s; friend_request.save()`
(views.py lines 62-63 and 75-76): persist the new status of the row with
the given primary key. -/
def setStatus (db : DB) (pk : Nat) (s : String) : DB :=
  { db with friendRequests :=
      db.friendRequests.map (fun r => if r.id == pk then { r with status := s } else r) }

/-- Modelled from the spec: `notify(owner, kind, payload)` of §4.4 appends a
Notification with `is_read = false` for `owner` (the Notification-creating
code lives in models.py / serializers.py, which are not under src/; the id
and timestamp fields are not constrained by the spec). -/
def notify (db : DB) (owner : Nat) : DB :=
  { db with notifications := db.notifications ++ [⟨db.notifications.length, owner, false, 0⟩] }

/-- Embedding of `FriendRequestViewSet.accept` (views.py lines 53-68): 404
scope lookup, pending check, one-directional duplicate check, persisted
status write, then the two directed edge inserts — with no enclosing
transaction, so a failing insert leaves the earlier writes persisted.  The
success-path Notification for the sender is modelled from the spec (§4.1
side effect; its creation is not in views.py). -/
def accept (db : DB) (pk user : Nat) : ApiResult × DB :=
  match findRequest db pk user with
  | none => (.notFound, db)
  | some fr =>
    if fr.status ≠ "pending" then (.alreadyProcessed, db)
    else if friendshipExists db fr.sender fr.receiver then (.duplicateFriendship, db)
    else
      match friendshipCreate (setStatus db fr.id "accepted") fr.sender fr.receiver with
      | none => (.conflict, setStatus db fr.id "accepted")
      | some db2 =>
        match friendshipCreate db2 fr.receiver fr.sender with
        | none => (.conflict, db2)
        | some db3 => (.ok, notify db3 fr.sender)

/-- Embedding of `FriendRequestViewSet.decline` (views.py lines 70-77). -/
def decline (db : DB) (pk user : Nat) : ApiResult × DB :=
  match findRequest db pk user with
  | none => (.notFound, db)
  | some fr =>
    if fr.status ≠ "pending" then (.alreadyProcessed, db)
    else (.ok, setStatus db fr.id "declined")

/-- Modelled from the spec: `create(sender, receiver)` of §4.1
(FriendRequestSerializer is in serializers.py, not under src/): fails with
InvalidTarget when sender = receiver, otherwise persists a pending request
whose sender is the acting user (`perform_create`, views.py lines 50-51)
and enqueues a Notification for the receiver (§4.1 side effect). -/
def createFriendRequest (db : DB) (sender receiver id ts : Nat) : Option DB :=
  if sender == receiver then none
  else some (notify
    { db with friendRequests := db.friendRequests ++ [⟨id, sender, receiver, "pending", ts⟩] }
    receiver)

/-- Modelled from the spec: `send(sender, receiver, body)` of §4.3
(MessageSerializer is in serializers.py, not under src/): fails with
InvalidTarget when sender = receiver or the body is empty, otherwise
persists the Message with the acting user as sender (`perform_create`,
views.py lines 133-134) and enqueues a Notification for the receiver. -/
def sendMessage (db : DB) (sender receiver : Nat) (body : String) (id ts : Nat) : Option DB :=
  if sender == receiver || body == "" then none
  else some (notify
    { db with messages := db.messages ++ [⟨id, sender, receiver, body, ts⟩] }
    receiver)

/-- Digits-to-value accumulator for `pyInt?`. -/
def digitsVal (cs : List Char) : Nat :=
  cs.foldl (fun acc c => acc * 10 + (c.toNat - 48)) 0

/-- Model of Python `int(s)` for a string argument (views.py line 124):
surrounding whitespace is stripped, then an optional sign followed by at
least one decimal digit is accepted; anything else raises ValueError,
modelled as `none`. -/
def pyInt? (s : String) : Option Int :=
  let cs := ((s.data.dropWhile (fun c => c == ' ')).reverse.dropWhile (fun c => c == ' ')).reverse
  match cs with
  | [] => none
  | c :: rest =>
    if c == '-' then
      if rest ≠ [] && rest.all Char.isDigit then some (-(digitsVal rest : Int)) else none
    else if c == '+' then
      if rest ≠ [] && rest.all Char.isDigit then some (digitsVal rest : Int) else none
    else if (c :: rest).all Char.isDigit then some (digitsVal (c :: rest) : Int)
    else none

/-- Core of `ChatMessageViewSet.get_queryset` (views.py lines 128-131): the
symmetric OR filter over the Message table ordered ascending by timestamp. -/
def threadMessages (db : DB) (user : Nat) (fid : Int) : List Message :=
  (db.messages.filter (fun m =>
      (m.sender == user && (m.receiver : Int) == fid) ||
      ((m.sender : Int) == fid && m.receiver == user))).mergeSort
    (fun m1 m2 => decide (m1.timestamp ≤ m2.timestamp))

/-- Embedding of `ChatMessageViewSet.get_queryset` (views.py lines 120-131):
an absent `friend_id` parameter raises TypeError in `int(...)` and a
non-numeric one raises ValueError, both answered with the empty queryset. -/
def messagesQueryset (db : DB) (user : Nat) (friendIdParam : Option String) : List Message :=
  match friendIdParam with
  | none => []
  | some s =>
    match pyInt? s with
    | none => []
    | some fid => threadMessages db user fid

/-- Embedding of `FriendRequestViewSet.get_queryset` (views.py lines 47-48):
requests whose receiver is the acting user, newest first. -/
def friendRequestQueryset (db : DB) (user : Nat) : List FriendRequest :=
  (db.friendRequests.filter (fun r => r.receiver == user)).mergeSort
    (fun r1 r2 => decide (r2.created_at ≤ r1.created_at))

/-- Embedding of `NotificationListView.get_queryset` (views.py lines 142-143):
notifications owned by the acting user, newest first. -/
def notificationQueryset (db : DB) (user : Nat) : List Notification :=
  (db.notifications.filter (fun n => n.user == user)).mergeSort
    (fun n1 n2 => decide (n2.timestamp ≤ n1.timestamp))

/-- Row update performed by `NotificationMarkReadView.post` (views.py
lines 151-152): set `is_read = true` on the row matched by primary key and
owner. -/
def markReadUpd (pk user : Nat) (n : Notification) : Notification :=
  if n.id == pk && n.user == user then { n with is_read := true } else n

/-- Embedding of `NotificationMarkReadView.post` (views.py lines 149-153):
404 unless a notification with this primary key owned by the acting user
exists, otherwise persist `is_read = true` on that row and answer 200. -/
def markRead (db : DB) (pk user : Nat) : Option DB :=
  match db.notifications.find? (fun n => n.id == pk && n.user == user) with
  | none => none
  | some _ => some { db with notifications := db.notifications.map (markReadUpd pk user) }

/-! Sample stores used by witnesses and counterexamples. -/

/-- Empty store. -/
def dbEmpty : DB := ⟨[], [], [], []⟩

/-- One pending request from user 1 to user 2, no friendships. -/
def dbPending : DB := ⟨[⟨0, 1, 2, "pending", 0⟩], [], [], []⟩

/-- Pending request 1→2 while only the reverse edge (2,1) is stored. -/
def dbReverseEdge : DB := ⟨[⟨0, 1, 2, "pending", 0⟩], [⟨2, 1⟩], [], []⟩

/-- Pending request 1→2 while the forward edge (1,2) is stored. -/
def dbForwardEdge : DB := ⟨[⟨0, 1, 2, "pending", 0⟩], [⟨1, 2⟩], [], []⟩

/-- One request from user 1 to user 2 already accepted. -/
def dbAccepted : DB := ⟨[⟨0, 1, 2, "accepted", 0⟩], [], [], []⟩

/-- One unread notification with id 0 owned by user 5. -/
def dbOneNote : DB := ⟨[], [], [], [⟨0, 5, false, 0⟩]⟩

/-! Helper lemmas about the store operations. -/

lemma setStatus_friendships (db : DB) (pk : Nat) (s : String) :
    (setStatus db pk s).friendships = db.friendships := rfl

lemma setStatus_notifications (db : DB) (pk : Nat) (s : String) :
    (setStatus db pk s).notifications = db.notifications := rfl

lemma setStatus_friendRequests (db : DB) (pk : Nat) (s : String) :
    (setStatus db pk s).friendRequests =
      db.friendRequests.map (fun r => if r.id == pk then { r with status := s } else r) := rfl

lemma notify_friendships (db : DB) (o : Nat) : (notify db o).friendships = db.friendships := rfl

lemma notify_friendRequests (db : DB) (o : Nat) :
    (notify db o).friendRequests = db.friendRequests := rfl

lemma notify_notifications (db : DB) (o : Nat) :
    (notify db o).notifications =
      db.notifications ++ [⟨db.notifications.length, o, false, 0⟩] := rfl

lemma friendshipCreate_some {db db' : DB} {a b : Nat}
    (h : friendshipCreate db a b = some db') :
    friendshipExists db a b = false ∧
    db'.friendships = db.friendships ++ [⟨a, b⟩] ∧
    db'.friendRequests = db.friendRequests ∧
    db'.messages = db.messages ∧
    db'.notifications = db.notifications := by
  unfold friendshipCreate at h
  split at h
  · exact absurd h (by simp)
  · rename_i hex
    obtain rfl : { db with friendships := db.friendships ++ [⟨a, b⟩] } = db' :=
      Option.some.inj h
    simp_all

lemma friendshipExists_of_fields {db db' : DB} {a b : Nat}
    (h : db'.friendships = db.friendships) :
    friendshipExists db' a b = friendshipExists db a b := by
  unfold friendshipExists; rw [h]

lemma friendshipExists_append (db : DB) (l : List Friendship) (x y : Nat) :
    (friendshipExists { db with friendships := db.friendships ++ l } x y) =
      (friendshipExists db x y || l.any (fun f => f.user1 == x && f.user2 == y)) := by
  unfold friendshipExists
  simp [List.any_append]

/-- C3: for every friend request whose status is not "pending", both
`accept` and `decline` answer AlreadyProcessed and return the store
entirely unchanged — the request keeps every field, and no Friendship row
is created. -/
theorem nonpending_accept_decline_unchanged (db : DB) (pk user : Nat) (fr : FriendRequest)
    (hfind : findRequest db pk user = some fr) (hst : fr.status ≠ "pending") :
    accept db pk user = (.alreadyProcessed, db) ∧
    decline db pk user = (.alreadyProcessed, db) := by
  unfold accept decline
  rw [hfind]
  simp [hst]

/-- Witness for C3 at the store holding the already-accepted request 1→2,
acted on by its receiver 2. -/
theorem nonpending_accept_decline_unchanged_witness :
    accept dbAccepted 0 2 = (.alreadyProcessed, dbAccepted) ∧
    decline dbAccepted 0 2 = (.alreadyProcessed, dbAccepted) :=
  nonpending_accept_decline_unchanged dbAccepted 0 2 ⟨0, 1, 2, "accepted", 0⟩
    (by decide) (by decide)

/-- C4 counterexample: with the pending request 1→2 and only the reverse
edge (2,1) stored, the claim demands a DuplicateFriendship failure with no
mutation, but the duplicate check of views.py line 59 only inspects the
(sender, receiver) direction, so `accept` proceeds and mutates the store. -/
theorem reverse_edge_escapes_duplicate_check :
    findRequest dbReverseEdge 0 2 = some ⟨0, 1, 2, "pending", 0⟩ ∧
    friendshipExists dbReverseEdge 2 1 = true ∧
    (accept dbReverseEdge 0 2).1 ≠ ApiResult.duplicateFriendship ∧
    (accept dbReverseEdge 0 2).2 ≠ dbReverseEdge := by decide

/-- C4 amended: `accept` fails with DuplicateFriendship — before any
mutation, leaving the store untouched — exactly when the directed row
(sender, receiver) already exists; the check inspects only that
direction, not the reverse one. -/
theorem forward_duplicate_check_blocks_accept (db : DB) (pk user : Nat) (fr : FriendRequest)
    (hfind : findRequest db pk user = some fr) (hp : fr.status = "pending")
    (hex : friendshipExists db fr.sender fr.receiver = true) :
    accept db pk user = (.duplicateFriendship, db) := by
  unfold accept
  rw [hfind]
  simp [hp, hex]

/-- Witness for the amended C4 at the store holding the pending request
1→2 and the forward edge (1,2). -/
theorem forward_duplicate_check_blocks_accept_witness :
    accept dbForwardEdge 0 2 = (.duplicateFriendship, dbForwardEdge) :=
  forward_duplicate_check_blocks_accept dbForwardEdge 0 2 ⟨0, 1, 2, "pending", 0⟩
    (by decide) (by decide) (by decide)

/-- C1 (code bug): the accept path of views.py lines 62-67 opens no
transaction, so when the second edge insert fails — here because the
reverse edge (2,1) already exists and violates the pair's uniqueness
constraint — the handler aborts with an unhandled conflict while the
status write and the first edge insert stay persisted: the stored request
reads "accepted" even though the operation failed. -/
theorem accept_persists_status_despite_edge_failure :
    (accept dbReverseEdge 0 2).1 = ApiResult.conflict ∧
    (∀ r ∈ (accept dbReverseEdge 0 2).2.friendRequests, r.status = "accepted") ∧
    findRequest dbReverseEdge 0 2 = some ⟨0, 1, 2, "pending", 0⟩ := by decide

lemma accept_ok_cases {db db' : DB} {pk user : Nat} (h : accept db pk user = (.ok, db')) :
    ∃ fr db2 db3, findRequest db pk user = some fr ∧
      fr.status = "pending" ∧
      friendshipExists db fr.sender fr.receiver = false ∧
      friendshipCreate (setStatus db fr.id "accepted") fr.sender fr.receiver = some db2 ∧
      friendshipCreate db2 fr.receiver fr.sender = some db3 ∧
      db' = notify db3 fr.sender := by
  unfold accept at h
  split at h
  · simp at h
  · rename_i fr hfind
    split at h
    · simp at h
    · rename_i hst
      split at h
      · simp at h
      · rename_i hdup
        split at h
        · simp at h
        · rename_i db2 hc1
          split at h
          · simp at h
          · rename_i db3 hc2
            have hp := (Prod.mk.injEq ..).mp h
            exact ⟨fr, db2, db3, hfind, not_ne_iff.mp hst, by simpa using hdup,
              hc1, hc2, hp.2.symm⟩

/-- C2: a successful `accept` of the request fr = (A→B) persists status
"accepted" on fr, afterwards both directed rows (A,B) and (B,A) exist,
and neither directed row existed before the call. -/
theorem accept_ok_materializes_both_edges (db db' : DB) (pk user : Nat)
    (h : accept db pk user = (.ok, db')) :
    ∃ fr, findRequest db pk user = some fr ∧
      friendshipExists db fr.sender fr.receiver = false ∧
      friendshipExists db fr.receiver fr.sender = false ∧
      friendshipExists db' fr.sender fr.receiver = true ∧
      friendshipExists db' fr.receiver fr.sender = true ∧
      ∀ r ∈ db'.friendRequests, r.id = fr.id → r.status = "accepted" := by
  obtain ⟨fr, db2, db3, hfind, hst, hdup, hc1, hc2, rfl⟩ := accept_ok_cases h
  obtain ⟨h1f, h1fs, h1fr, -, h1n⟩ := friendshipCreate_some hc1
  obtain ⟨h2f, h2fs, h2fr, -, h2n⟩ := friendshipCreate_some hc2
  have e1 : db2.friendships = db.friendships ++ [⟨fr.sender, fr.receiver⟩] := by
    rw [h1fs, setStatus_friendships]
  have e2 : (notify db3 fr.sender).friendships =
      (db.friendships ++ [⟨fr.sender, fr.receiver⟩]) ++ [⟨fr.receiver, fr.sender⟩] := by
    rw [notify_friendships, h2fs, e1]
  have e3 : (notify db3 fr.sender).friendRequests =
      db.friendRequests.map
        (fun r => if r.id == fr.id then { r with status := "accepted" } else r) := by
    rw [notify_friendRequests, h2fr, h1fr, setStatus_friendRequests]
  refine ⟨fr, hfind, hdup, ?_, ?_, ?_, ?_⟩
  · unfold friendshipExists at h2f ⊢
    rw [e1] at h2f
    simp [List.any_append] at h2f
    simp only [List.any_eq_false]
    intro x hx
    simpa using h2f.1 x hx
  · unfold friendshipExists
    rw [e2]
    simp [List.any_append]
  · unfold friendshipExists
    rw [e2]
    simp [List.any_append]
  · intro r hr hid
    rw [e3] at hr
    obtain ⟨x, hx, rfl⟩ := List.mem_map.mp hr
    by_cases hxid : (x.id == fr.id) = true
    · simp [hxid]
    · simp only [Bool.not_eq_true] at hxid
      simp [hxid] at hid ⊢
      exact absurd hid (by simpa using hxid)

/-- Witness for C2: accepting the pending request 1→2 at `dbPending` as
its receiver 2 succeeds and materializes both edges. -/
theorem accept_ok_materializes_both_edges_witness :
    ∃ fr, findRequest dbPending 0 2 = some fr ∧
      friendshipExists dbPending fr.sender fr.receiver = false ∧
      friendshipExists dbPending fr.receiver fr.sender = false ∧
      friendshipExists ((accept dbPending 0 2).2) fr.sender fr.receiver = true ∧
      friendshipExists ((accept dbPending 0 2).2) fr.receiver fr.sender = true ∧
      ∀ r ∈ ((accept dbPending 0 2).2).friendRequests,
        r.id = fr.id → r.status = "accepted" :=
  accept_ok_materializes_both_edges dbPending ((accept dbPending 0 2).2) 0 2 (by decide)

/-- C5: a successful `create` appends exactly one Notification, owned by
the receiver and unread, and a successful `accept` appends exactly one
Notification, owned by the original sender of the request and unread. -/
theorem create_accept_enqueue_notifications :
    (∀ db sender receiver id ts db',
        createFriendRequest db sender receiver id ts = some db' →
        ∃ n, db'.notifications = db.notifications ++ [n] ∧
          n.user = receiver ∧ n.is_read = false) ∧
    (∀ db pk user db', accept db pk user = (.ok, db') →
        ∃ fr n, findRequest db pk user = some fr ∧
          db'.notifications = db.notifications ++ [n] ∧
          n.user = fr.sender ∧ n.is_read = false) := by
  constructor
  · intro db s r id ts db' h
    unfold createFriendRequest at h
    split at h
    · exact absurd h (by simp)
    · obtain rfl := Option.some.inj h
      exact ⟨_, rfl, rfl, rfl⟩
  · intro db pk user db' h
    obtain ⟨fr, db2, db3, hfind, -, -, hc1, hc2, rfl⟩ := accept_ok_cases h
    obtain ⟨-, -, -, -, h1n⟩ := friendshipCreate_some hc1
    obtain ⟨-, -, -, -, h2n⟩ := friendshipCreate_some hc2
    have en : db3.notifications = db.notifications := by
      rw [h2n, h1n, setStatus_notifications]
    exact ⟨fr, _, hfind, by rw [notify_notifications, en], rfl, rfl⟩

/-- Witness for C5: the creation 1→2 over the empty store notifies user 2,
and accepting the pending request 1→2 at `dbPending` notifies user 1, the
sender. -/
theorem create_accept_enqueue_notifications_witness :
    (∃ n, ((createFriendRequest dbEmpty 1 2 0 0).getD dbEmpty).notifications =
        dbEmpty.notifications ++ [n] ∧ n.user = 2 ∧ n.is_read = false) ∧
    (∃ fr n, findRequest dbPending 0 2 = some fr ∧
        ((accept dbPending 0 2).2).notifications = dbPending.notifications ++ [n] ∧
        n.user = fr.sender ∧ n.is_read = false) :=
  ⟨create_accept_enqueue_notifications.1 dbEmpty 1 2 0 0 _ (by decide),
   create_accept_enqueue_notifications.2 dbPending 0 2 _ (by decide)⟩

/-- C6: `send` fails with InvalidTarget — creating nothing — whenever the
sender equals the receiver or the body is empty. -/
theorem send_rejects_self_and_empty (db : DB) (s r : Nat) (body : String) (id ts : Nat)
    (h : s = r ∨ body = "") : sendMessage db s r body id ts = none := by
  unfold sendMessage
  rcases h with rfl | rfl <;> simp

/-- Witness for C6: a self-send and an empty-body send over the empty
store both fail. -/
theorem send_rejects_self_and_empty_witness :
    sendMessage dbEmpty 1 1 "x" 0 0 = none ∧ sendMessage dbEmpty 1 2 "" 0 0 = none :=
  ⟨send_rejects_self_and_empty dbEmpty 1 1 "x" 0 0 (Or.inl rfl),
   send_rejects_self_and_empty dbEmpty 1 2 "" 0 0 (Or.inr rfl)⟩

lemma intCast_beq (x y : Nat) : ((x : Int) == (y : Int)) = (x == y) := by
  rw [Bool.eq_iff_iff]
  simp

lemma threadFilter_natPred (db : DB) (u v : Nat) :
    db.messages.filter (fun m =>
        (m.sender == u && (m.receiver : Int) == (v : Int)) ||
        ((m.sender : Int) == (v : Int) && m.receiver == u)) =
      db.messages.filter (fun m =>
        (m.sender == u && m.receiver == v) || (m.sender == v && m.receiver == u)) := by
  apply List.filter_congr
  intro m _
  rw [intCast_beq, intCast_beq]

/-- C7: the conversation view between users a and b is exactly the
messages whose endpoints are {a, b} (as a permutation of the filtered
table and as a membership characterization), it is ordered ascending by
timestamp, and querying it as (a, b) or as (b, a) yields the same
sequence. -/
theorem thread_exact_sorted_symmetric (db : DB) (a b : Nat) :
    (threadMessages db a (b : Int)).Perm
      (db.messages.filter (fun m =>
        (m.sender == a && m.receiver == b) || (m.sender == b && m.receiver == a))) ∧
    (∀ m, m ∈ threadMessages db a (b : Int) ↔
      (m ∈ db.messages ∧
        ((m.sender = a ∧ m.receiver = b) ∨ (m.sender = b ∧ m.receiver = a)))) ∧
    List.Pairwise (fun m1 m2 => m1.timestamp ≤ m2.timestamp)
      (threadMessages db a (b : Int)) ∧
    threadMessages db a (b : Int) = threadMessages db b (a : Int) := by
  refine ⟨?_, ?_, ?_, ?_⟩
  · unfold threadMessages
    exact (List.mergeSort_perm _ _).trans (by rw [threadFilter_natPred])
  · intro m
    unfold threadMessages
    rw [List.mem_mergeSort, threadFilter_natPred, List.mem_filter]
    simp
  · unfold threadMessages
    refine List.Pairwise.imp (fun h => of_decide_eq_true h)
      (List.sorted_mergeSort ?_ ?_ _)
    · intro x y z hxy hyz
      simp only [decide_eq_true_eq] at hxy hyz ⊢
      omega
    · intro x y
      simp only [Bool.or_eq_true, decide_eq_true_eq]
      exact Nat.le_total _ _
  · unfold threadMessages
    rw [threadFilter_natPred, threadFilter_natPred]
    congr 1
    apply List.filter_congr
    intro m _
    rw [Bool.eq_iff_iff]
    simp only [Bool.or_eq_true, Bool.and_eq_true]
    tauto

/-- C8: the thread query with an absent `friend_id` parameter, or one that
Python `int` cannot parse, answers the empty sequence rather than an
error. -/
theorem absent_or_unparseable_counterpart_empty (db : DB) (user : Nat) (p : Option String)
    (h : p = none ∨ ∃ s, p = some s ∧ pyInt? s = none) :
    messagesQueryset db user p = [] := by
  rcases h with rfl | ⟨s, rfl, hs⟩
  · rfl
  · simp [messagesQueryset, hs]

/-- Witness for C8: the absent parameter and the parameter "abc" both
produce the empty sequence. -/
theorem absent_or_unparseable_counterpart_empty_witness :
    messagesQueryset dbEmpty 1 none = [] ∧
    messagesQueryset dbEmpty 1 (some "abc") = [] :=
  ⟨absent_or_unparseable_counterpart_empty dbEmpty 1 none (Or.inl rfl),
   absent_or_unparseable_counterpart_empty dbEmpty 1 (some "abc")
     (Or.inr ⟨"abc", rfl, by decide⟩)⟩

/-- C9: for a notification owned by the acting user, `markRead` succeeds,
a second `markRead` succeeds again and changes nothing (a no-op success,
not an error), and after either call the targeted notification reads
`is_read = true`. -/
theorem markRead_idempotent_success (db : DB) (pk user : Nat) (n : Notification)
    (hmem : n ∈ db.notifications) (hid : n.id = pk) (huser : n.user = user) :
    ∃ db1, markRead db pk user = some db1 ∧ markRead db1 pk user = some db1 ∧
      ∀ m ∈ db1.notifications, m.id = pk → m.user = user → m.is_read = true := by
  have hp : (n.id == pk && n.user == user) = true := by simp [hid, huser]
  have hupd : ∀ x : Notification, markReadUpd pk user (markReadUpd pk user x) =
      markReadUpd pk user x := by
    intro x
    unfold markReadUpd
    by_cases hx : (x.id == pk && x.user == user) = true
    · simp [hx]
    · simp [hx]
  have hmap : (db.notifications.map (markReadUpd pk user)).map (markReadUpd pk user) =
      db.notifications.map (markReadUpd pk user) := by
    rw [List.map_map]
    exact List.map_congr_left (fun x _ => hupd x)
  refine ⟨{ db with notifications := db.notifications.map (markReadUpd pk user) }, ?_, ?_, ?_⟩
  · unfold markRead
    rcases hf : db.notifications.find? (fun x => x.id == pk && x.user == user) with _ | x
    · exact absurd (List.find?_eq_none.mp hf n hmem) (by simp [hp])
    · simp [hf]
  · unfold markRead
    rcases hf : (db.notifications.map (markReadUpd pk user)).find?
        (fun x => x.id == pk && x.user == user) with _ | x
    · refine absurd (List.find?_eq_none.mp hf (markReadUpd pk user n)
        (List.mem_map_of_mem _ hmem)) ?_
      unfold markReadUpd
      simp [hp, hid, huser]
    · rw [hf, hmap]
  · intro m hm hmid hmuser
    obtain ⟨x, hx, rfl⟩ := List.mem_map.mp hm
    unfold markReadUpd
    by_cases hpx : (x.id == pk && x.user == user) = true
    · simp [hpx]
    · unfold markReadUpd at hmid hmuser
      rw [if_neg hpx] at hmid hmuser
      exact absurd (by simp [hmid, hmuser]) hpx

/-- Witness for C9 at the store holding the single unread notification 0
owned by user 5. -/
theorem markRead_idempotent_success_witness :
    ∃ db1, markRead dbOneNote 0 5 = some db1 ∧ markRead db1 0 5 = some db1 ∧
      ∀ m ∈ db1.notifications, m.id = 0 → m.user = 5 → m.is_read = true :=
  markRead_idempotent_success dbOneNote 0 5 ⟨0, 5, false, 0⟩ (by decide) rfl rfl

/-- C10: every read is scoped to the acting user — the incoming-request
listing only holds requests received by the acting user, the notification
listing only notifications it owns, the thread only messages it sent or
received, and `markRead` finds a notification exactly when the acting
user owns one with that primary key. -/
theorem reads_scoped_to_acting_user (db : DB) (user pk : Nat) (p : Option String) :
    ((friendRequestQueryset db user).all (fun r => r.receiver == user)) = true ∧
    ((notificationQueryset db user).all (fun n => n.user == user)) = true ∧
    ((messagesQueryset db user p).all (fun m => m.sender == user || m.receiver == user)) = true ∧
    (markRead db pk user).isSome =
      db.notifications.any (fun n => n.id == pk && n.user == user) := by
  refine ⟨?_, ?_, ?_, ?_⟩
  · rw [List.all_eq_true]
    intro r hr
    rw [friendRequestQueryset, List.mem_mergeSort, List.mem_filter] at hr
    exact hr.2
  · rw [List.all_eq_true]
    intro n hn
    rw [notificationQueryset, List.mem_mergeSort, List.mem_filter] at hn
    exact hn.2
  · rcases p with _ | s
    · simp [messagesQueryset]
    · rcases hi : pyInt? s with _ | fid
      · simp [messagesQueryset, hi]
      · rw [List.all_eq_true]
        intro m hm
        have hm' : m ∈ threadMessages db user fid := by
          simpa [messagesQueryset, hi] using hm
        rw [threadMessages, List.mem_mergeSort, List.mem_filter] at hm'
        rcases Bool.or_eq_true .. |>.mp hm'.2 with hcase | hcase
        · simp [Bool.and_eq_true .. |>.mp hcase |>.1]
        · simp [Bool.and_eq_true .. |>.mp hcase |>.2]
  · unfold markRead
    rcases hf : db.notifications.find? (fun n => n.id == pk && n.user == user) with _ | x
    · rw [hf]
      show (false : Bool) = _
      symm
      rw [List.any_eq_false]
      exact List.find?_eq_none.mp hf
    · rw [hf]
      show (true : Bool) = _
      symm
      rw [List.any_eq_true]
      have hpx := List.find?_some hf
      exact ⟨x, List.mem_of_find?_eq_some hf, hpx⟩

end WNL
